import Mathlib

/-!
Verification of the Living Inventory Management System (src/app.py).

The program keeps an in-memory inventory (a Python list of dicts held in
`st.session_state.inventory`), persisted as a whole JSON file, with
add / delete / update-price mutations and category / name filters.
Below we embed the record model and each operation shallowly and prove
the spec's claims about them.
-/

namespace Inventory

/-- One inventory record, the dict built in `app.py` lines 42-50:
`id`, `name`, `category`, `quantity`, `price`, `care_instructions`,
`date_added`.  `quantity` is an `int` (`st.number_input` with integer
default), `price` a decimal number modelled exactly as `Rat`, and the
remaining fields strings. -/
structure Record where
  id : Nat
  name : String
  category : String
  quantity : Nat
  price : Rat
  care_instructions : String
  date_added : String
deriving DecidableEq, Repr

/-- `app.py` lines 41-51: the add handler builds a new dict with
`id = len(st.session_state.inventory) + 1` and
`date_added = datetime.now().strftime(...)`, then appends it.
The wall-clock timestamp is passed in as the explicit argument `now`. -/
def add_item (inv : List Record) (name category : String) (quantity : Nat)
    (price : Rat) (care_instructions now : String) : List Record :=
  inv ++ [{ id := inv.length + 1
            name := name
            category := category
            quantity := quantity
            price := price
            care_instructions := care_instructions
            date_added := now }]

/-- `app.py` lines 102-106: deletion rebuilds the list by the comprehension
`[item for item in inventory if item['id'] != item_to_delete]`. -/
def delete_item (inv : List Record) (target : Nat) : List Record :=
  inv.filter (fun item => item.id != target)

/-- `app.py` lines 137-140: the update loop sets `item['price'] = new_price`
on every element whose `id` matches; all other elements are untouched. -/
def update_price (inv : List Record) (target : Nat) (new_price : Rat) :
    List Record :=
  inv.map (fun item =>
    if item.id = target then { item with price := new_price } else item)

/-- `app.py` lines 73-75: `if category_filter:` (an empty selection list is
falsy, so no filtering happens) else keep the rows whose `category` is in
(`isin`) the selected list. -/
def filter_by_categories (inv : List Record) (cats : List String) :
    List Record :=
  if cats.isEmpty then inv
  else inv.filter (fun item => cats.contains item.category)

/-! ### The name filter (`app.py` lines 76-77)

`filtered_df[filtered_df['name'].str.contains(search_term, case=False)]`
is applied only when `search_term` is non-empty (`if search_term:`).
`pandas.Series.str.contains` with its default `regex=True` and
`case=False` performs `re.search(pattern, value, re.IGNORECASE)`:
the search term is interpreted as a regular expression, not as a plain
substring.  We embed `re.search` on the fragment of Python regular
expressions actually exercised by the theorems below: patterns made of
literal characters and the metacharacter `.` (which matches any single
character).  On that fragment the model is the documented `re` semantics;
every theorem below only invokes it on patterns containing no other
metacharacter, so the restriction is without loss. -/

/-- A compiled regex token: a literal character, or `.` (any char). -/
inductive RTok where
  | lit (c : Char)
  | dot
deriving DecidableEq, Repr

/-- Compile a pattern string (given as a char list): `.` becomes the
any-character token, every other character a literal. -/
def parseRegex (pat : List Char) : List RTok :=
  pat.map (fun c => if c = '.' then RTok.dot else RTok.lit c)

/-- One token against one character, under `re.IGNORECASE`. -/
def tokMatch : RTok → Char → Bool
  | RTok.lit l, c => l.toLower = c.toLower
  | RTok.dot, _ => true

/-- The token list matches a prefix of `s` (each token consumes exactly
one character). -/
def matchHere : List RTok → List Char → Bool
  | [], _ => true
  | _ :: _, [] => false
  | t :: ts, c :: cs => tokMatch t c && matchHere ts cs

/-- `re.search`: the pattern matches starting at some position of `s`. -/
def reSearch (p : List RTok) : List Char → Bool
  | [] => matchHere p []
  | c :: cs => matchHere p (c :: cs) || reSearch p cs

/-- `Series.str.contains(term, case=False)` on one cell. -/
def strContainsCI (name : String) (term : List Char) : Bool :=
  reSearch (parseRegex term) name.data

/-- `app.py` lines 76-77: keep the rows whose `name` matches the search
term; an empty term (`if search_term:` falsy) leaves the frame as is. -/
def filter_by_name_substring (inv : List Record) (term : List Char) :
    List Record :=
  if term.isEmpty then inv
  else inv.filter (fun item => strContainsCI item.name term)

/-- The metacharacters of Python regular expressions (outside character
classes).  A term avoiding all of them is matched purely literally. -/
def regexMetachars : List Char :=
  ['.', '^', '$', '*', '+', '?', '\x7b', '\x7d', '[', ']', '(', ')', '|', '\\']

/-- The specification predicate for the name search: `term` occurs in
`name` as a case-insensitive substring. -/
def nameMatchesCI (name : String) (term : List Char) : Prop :=
  term.map Char.toLower <:+: name.data.map Char.toLower

instance (name : String) (term : List Char) :
    Decidable (nameMatchesCI name term) :=
  List.decidableInfix _ _

/-! ### Persistence (`app.py` lines 15-24)

Startup: if `inventory.json` exists it is parsed with `json.load` and the
result — whatever JSON value it is — becomes the inventory; if it does not
exist the inventory starts empty.  `save_inventory` serialises the whole
list with `json.dump`.  We model JSON values abstractly and the backing
file as either absent, present-but-not-valid-JSON, or present with a
parsed JSON value; `json.load` returns the value or raises
`json.JSONDecodeError` on invalid text, and performs no further
validation. -/

/-- A JSON value (Python ints and floats kept apart, as `json` does;
floats modelled exactly, which matches Python's exact repr round-trip). -/
inductive Json where
  | jnull
  | jbool (b : Bool)
  | jint (n : Int)
  | jnum (q : Rat)
  | jstr (s : String)
  | jarr (xs : List Json)
  | jobj (kvs : List (String × Json))
deriving Repr

/-- The backing file's content: not valid JSON text, or a JSON value. -/
inductive FileContent where
  | invalid
  | json (j : Json)
deriving Repr

/-- Errors surfaced by loading. -/
inductive LoadError where
  | jsonDecodeError
deriving DecidableEq, Repr

/-- `app.py` lines 15-20: missing file gives the empty list; an existing
file is handed to `json.load`, which fails only on invalid JSON and
otherwise returns the parsed value unvalidated. -/
def load_inventory : Option FileContent → Except LoadError Json
  | none => Except.ok (Json.jarr [])
  | some FileContent.invalid => Except.error LoadError.jsonDecodeError
  | some (FileContent.json j) => Except.ok j

/-- The JSON object `json.dump` writes for one record dict, keys in the
insertion order of the dict literal at `app.py` lines 42-50. -/
def encodeRecord (r : Record) : Json :=
  Json.jobj [("id", Json.jint r.id),
             ("name", Json.jstr r.name),
             ("category", Json.jstr r.category),
             ("quantity", Json.jint r.quantity),
             ("price", Json.jnum r.price),
             ("care_instructions", Json.jstr r.care_instructions),
             ("date_added", Json.jstr r.date_added)]

/-- The JSON array `save_inventory` (`app.py` lines 22-24) writes. -/
def encodeInventory (inv : List Record) : Json :=
  Json.jarr (inv.map encodeRecord)

/-- `save_inventory` as a file transition: the backing file afterwards
holds the serialised inventory. -/
def save_inventory (inv : List Record) : FileContent :=
  FileContent.json (encodeInventory inv)

/-- Reading one record back out of its persisted JSON object, following
the persisted state layout (`id`, `name`, `category`, `quantity`,
`price`, `care_instructions`, `date_added`). -/
def decodeRecord : Json → Option Record
  | Json.jobj [("id", Json.jint i),
               ("name", Json.jstr n),
               ("category", Json.jstr c),
               ("quantity", Json.jint q),
               ("price", Json.jnum p),
               ("care_instructions", Json.jstr ci),
               ("date_added", Json.jstr d)] =>
      some { id := i.toNat, name := n, category := c, quantity := q.toNat,
             price := p, care_instructions := ci, date_added := d }
  | _ => none

/-- Reading a list of persisted JSON objects back element by element;
any malformed element fails the whole read. -/
def decodeRecordList : List Json → Option (List Record)
  | [] => some []
  | x :: xs =>
      match decodeRecord x, decodeRecordList xs with
      | some r, some rs => some (r :: rs)
      | _, _ => none

/-- Reading a whole persisted inventory back into records. -/
def decodeInventory : Json → Option (List Record)
  | Json.jarr xs => decodeRecordList xs
  | _ => none

/-! ### Mutation plus persistence (`app.py` button handlers)

Each handler mutates the in-memory list first and only then calls
`save_inventory`; a failing write raises out of the handler and nothing
undoes the in-memory mutation.  The write's success is the explicit
`writeOk` flag. -/

/-- The session: the in-memory inventory plus the backing file. -/
structure SysState where
  mem : List Record
  file : Option FileContent

/-- One call to `save_inventory`: on success the file is rewritten with
the serialised inventory, on failure (`writeOk = false`) the exception
propagates and the state is left as it was.  The returned flag reports
success. -/
def attemptSave (writeOk : Bool) (s : SysState) : SysState × Bool :=
  if writeOk then ({ s with file := some (save_inventory s.mem) }, true)
  else (s, false)

/-- `app.py` lines 41-52: append the new record, then save. -/
def addAction (writeOk : Bool) (name category : String) (quantity : Nat)
    (price : Rat) (care_instructions now : String) (s : SysState) :
    SysState × Bool :=
  attemptSave writeOk
    { s with mem := add_item s.mem name category quantity price
                      care_instructions now }

/-- `app.py` lines 102-107: rebuild the list without the target id, then
save. -/
def deleteAction (writeOk : Bool) (target : Nat) (s : SysState) :
    SysState × Bool :=
  attemptSave writeOk { s with mem := delete_item s.mem target }

/-- `app.py` lines 137-141: set the price on every matching record, then
save. -/
def updatePriceAction (writeOk : Bool) (target : Nat) (new_price : Rat)
    (s : SysState) : SysState × Bool :=
  attemptSave writeOk { s with mem := update_price s.mem target new_price }

/-! ### Concrete records (the scenario store of spec §8) -/

def fern : Record :=
  { id := 1, name := "Fern", category := "Plants", quantity := 2,
    price := mkRat 999 100, care_instructions := "",
    date_added := "2024-01-01 10:00:00" }

def goldfish : Record :=
  { id := 2, name := "Goldfish", category := "Aquatic Life", quantity := 3,
    price := mkRat 9 2, care_instructions := "",
    date_added := "2024-01-01 10:05:00" }

/-! ### Claims -/

/-- C1: `delete(id)` removes exactly the records whose `id` equals the
given id (all duplicates included): the result is a sublist of the store
(so the survivors keep their original relative order), no surviving record
matches the id, and every record value with a different id keeps its exact
multiplicity. -/
theorem delete_removes_exactly (inv : List Record) (target : Nat) :
    (delete_item inv target).Sublist inv ∧
    (∀ r ∈ delete_item inv target, r.id ≠ target) ∧
    (∀ r : Record, r.id ≠ target →
      (delete_item inv target).count r = inv.count r) := by
  refine ⟨List.filter_sublist _, ?_, ?_⟩
  · intro r hr
    simp only [delete_item, List.mem_filter, bne_iff_ne, ne_eq] at hr
    exact hr.2
  · intro r hr
    exact List.count_filter (by simpa using hr)

/-- Witness for C1 at the spec §8 scenario store: deleting id 1 keeps the
Goldfish record with its multiplicity. -/
theorem delete_removes_exactly_witness :
    goldfish.id ≠ 1 ∧
    (delete_item [fern, goldfish] 1).count goldfish =
      ([fern, goldfish] : List Record).count goldfish :=
  ⟨by decide, (delete_removes_exactly [fern, goldfish] 1).2.2 goldfish (by decide)⟩

/-- C10: when no record of the store carries the given id, `delete(id)`
returns the store unchanged — nothing is removed or reordered. -/
theorem delete_no_match_unchanged (inv : List Record) (target : Nat)
    (h : ∀ r ∈ inv, r.id ≠ target) : delete_item inv target = inv := by
  rw [delete_item, List.filter_eq_self]
  intro r hr
  simpa using h r hr

/-- Witness for C10: id 5 occurs nowhere in the scenario store, and
deleting it changes nothing. -/
theorem delete_no_match_unchanged_witness :
    (∀ r ∈ ([fern, goldfish] : List Record), r.id ≠ 5) ∧
    delete_item [fern, goldfish] 5 = [fern, goldfish] :=
  ⟨by decide, delete_no_match_unchanged [fern, goldfish] 5 (by decide)⟩

/-- C4: `add` always succeeds (it is a total function of the supplied
field values, with no validation), appends exactly one record at the end
of the sequence leaving the existing records untouched, and the new record
carries `id = current_size + 1` and the creation timestamp. -/
theorem add_appends_fresh_record (inv : List Record) (name category : String)
    (quantity : Nat) (price : Rat) (care now : String) :
    (add_item inv name category quantity price care now).length =
      inv.length + 1 ∧
    (add_item inv name category quantity price care now).take inv.length =
      inv ∧
    (add_item inv name category quantity price care now).getLast? =
      some { id := inv.length + 1, name := name, category := category,
             quantity := quantity, price := price, care_instructions := care,
             date_added := now } := by
  refine ⟨by simp [add_item], ?_, ?_⟩
  · simpa only [add_item] using List.take_left inv _
  · simp [add_item, List.getLast?_concat]

/-- C5: record ids are not globally unique across the store's lifetime:
starting from the scenario store, deleting the existing record with id 1
and then adding a new item yields a store whose two records both carry
id 2. -/
theorem duplicate_id_reachable :
    1 ∈ ([fern, goldfish].map Record.id) ∧
    (add_item (delete_item [fern, goldfish] 1) "Ivy" "Plants" 1 0 ""
        "2024-01-02 09:00:00").map Record.id = [2, 2] ∧
    ¬ ((add_item (delete_item [fern, goldfish] 1) "Ivy" "Plants" 1 0 ""
        "2024-01-02 09:00:00").map Record.id).Nodup := by
  refine ⟨by decide, by decide, by decide⟩

/-- C6: `update_price(id, p)` is a frame-exact update: the length is
unchanged, every position holds either its old record (id mismatch) or its
old record with only `price` replaced (id match) — all other fields of
matching records and all non-matching records are untouched. -/
theorem update_price_full_frame (inv : List Record) (target : Nat) (p : Rat) :
    (update_price inv target p).length = inv.length ∧
    (∀ i : Nat, (update_price inv target p)[i]? =
      (inv[i]?).map (fun r =>
        if r.id = target then { r with price := p } else r)) ∧
    (∀ i : Nat, ∀ r : Record, inv[i]? = some r →
      (r.id = target →
        (update_price inv target p)[i]? =
          some { id := r.id, name := r.name, category := r.category,
                 quantity := r.quantity, price := p,
                 care_instructions := r.care_instructions,
                 date_added := r.date_added }) ∧
      (r.id ≠ target → (update_price inv target p)[i]? = some r)) := by
  refine ⟨by simp [update_price], ?_, ?_⟩
  · intro i
    simp [update_price]
  · intro i r hr
    constructor
    · intro hid
      simp [update_price, hr, hid]
    · intro hid
      simp [update_price, hr, hid]

/-- Witness for C6: updating id 1 to price 5 at the scenario store turns
position 0 into the Fern record with only its price changed. -/
theorem update_price_full_frame_witness :
    ([fern, goldfish] : List Record)[0]? = some fern ∧ fern.id = 1 ∧
    (update_price [fern, goldfish] 1 5)[0]? =
      some { id := fern.id, name := fern.name, category := fern.category,
             quantity := fern.quantity, price := 5,
             care_instructions := fern.care_instructions,
             date_added := fern.date_added } :=
  ⟨by decide, rfl,
    ((update_price_full_frame [fern, goldfish] 1 5).2.2 0 fern (by decide)).1 rfl⟩

/-- C7: filtering by the empty category selection is the identity, and a
non-empty selection keeps exactly the records whose `category` is one of
the selected values: the result is a sublist of the input (order
preserved), every kept record's category is selected, and every record
value with a selected category keeps its exact multiplicity. -/
theorem filter_by_categories_spec (inv : List Record) (cats : List String) :
    filter_by_categories inv [] = inv ∧
    (cats ≠ [] →
      (filter_by_categories inv cats).Sublist inv ∧
      (∀ r ∈ filter_by_categories inv cats, r.category ∈ cats) ∧
      (∀ r : Record, r.category ∈ cats →
        (filter_by_categories inv cats).count r = inv.count r)) := by
  constructor
  · rfl
  · intro hne
    have hni : cats.isEmpty = false := List.isEmpty_eq_false.mpr hne
    rw [filter_by_categories, hni]
    simp only [Bool.false_eq_true, if_false]
    refine ⟨List.filter_sublist _, ?_, ?_⟩
    · intro r hr
      rw [List.mem_filter] at hr
      exact (List.elem_iff).mp hr.2
    · intro r hr
      exact List.count_filter ((List.elem_iff).mpr hr)

/-- Witness for C7: the non-empty selection of Plants keeps the Fern
record with its multiplicity. -/
theorem filter_by_categories_spec_witness :
    (["Plants"] : List String) ≠ [] ∧ fern.category ∈ ["Plants"] ∧
    (filter_by_categories [fern, goldfish] ["Plants"]).count fern =
      ([fern, goldfish] : List Record).count fern :=
  ⟨by decide, by decide,
    ((filter_by_categories_spec [fern, goldfish] ["Plants"]).2
      (by decide)).2.2 fern (by decide)⟩

/-- C9: when the persistence write fails, the in-memory inventory still
holds the applied mutation — `add`, `delete` and `update_price` each
mutate the in-memory list before saving, the failure is reported, and
nothing rolls the mutation back (the backing file alone is left as it
was). -/
theorem mutation_kept_on_write_failure (s : SysState) (name category : String)
    (quantity : Nat) (price : Rat) (care now : String) (target : Nat)
    (p : Rat) :
    ((addAction false name category quantity price care now s).1.mem =
        add_item s.mem name category quantity price care now ∧
      (addAction false name category quantity price care now s).1.file =
        s.file ∧
      (addAction false name category quantity price care now s).2 = false) ∧
    ((deleteAction false target s).1.mem = delete_item s.mem target ∧
      (deleteAction false target s).1.file = s.file ∧
      (deleteAction false target s).2 = false) ∧
    ((updatePriceAction false target p s).1.mem =
        update_price s.mem target p ∧
      (updatePriceAction false target p s).1.file = s.file ∧
      (updatePriceAction false target p s).2 = false) := by
  refine ⟨⟨rfl, rfl, rfl⟩, ⟨rfl, rfl, rfl⟩, ⟨rfl, rfl, rfl⟩⟩

/-- Decoding undoes the per-record serialisation of `json.dump`. -/
theorem decodeRecord_encodeRecord (r : Record) :
    decodeRecord (encodeRecord r) = some r := by
  cases r
  simp [encodeRecord, decodeRecord]

/-- Decoding undoes the serialisation record by record. -/
theorem decodeRecordList_map_encodeRecord (inv : List Record) :
    decodeRecordList (inv.map encodeRecord) = some inv := by
  induction inv with
  | nil => rfl
  | cons r tl ih =>
      simp [decodeRecordList, decodeRecord_encodeRecord, ih]

/-- C8: the save/load round-trip is the identity on the record sequence:
loading the file that `save_inventory` wrote succeeds and returns the
serialised sequence, and reading that JSON array back record by record
recovers every field of every record saved. -/
theorem save_load_roundtrip (inv : List Record) :
    load_inventory (some (save_inventory inv)) =
      Except.ok (encodeInventory inv) ∧
    decodeInventory (encodeInventory inv) = some inv := by
  refine ⟨rfl, ?_⟩
  simpa [decodeInventory, encodeInventory] using
    decodeRecordList_map_encodeRecord inv

/-- C3: how the code actually loads — a missing file yields the empty
inventory with no error and invalid JSON raises the decode error, but a
file whose content is the valid JSON string `"not json"` is accepted
without any error and becomes the inventory as-is: no
`CorruptStateError` exists in the code and no array-of-records validation
is performed. -/
theorem load_accepts_non_array_json :
    load_inventory none = Except.ok (Json.jarr []) ∧
    load_inventory (some FileContent.invalid) =
      Except.error LoadError.jsonDecodeError ∧
    load_inventory (some (FileContent.json (Json.jstr "not json"))) =
      Except.ok (Json.jstr "not json") :=
  ⟨rfl, rfl, rfl⟩

/-! ### C2: the name filter is a regex search, not a substring test -/

/-- A term free of regex metacharacters compiles to literal tokens only. -/
theorem parseRegex_of_no_meta (term : List Char)
    (h : ∀ c ∈ term, c ∉ regexMetachars) :
    parseRegex term = term.map RTok.lit := by
  refine List.map_congr_left ?_
  intro c hc
  have hdot : c ≠ '.' :=
    fun e => h c hc (e ▸ (by decide : ('.' : Char) ∈ regexMetachars))
  simp [hdot]

/-- An all-literal pattern matches at the current position exactly when
the lowered term is a prefix of the lowered text. -/
theorem matchHere_lit_iff (term : List Char) :
    ∀ s : List Char, matchHere (term.map RTok.lit) s = true ↔
      term.map Char.toLower <+: s.map Char.toLower := by
  induction term with
  | nil =>
      intro s
      simp [matchHere]
  | cons c cs ih =>
      intro s
      cases s with
      | nil => simp [matchHere]
      | cons d ds =>
          simp [matchHere, tokMatch, ih ds, List.cons_prefix_cons]

/-- An all-literal pattern is found by `re.search` exactly when the
lowered term occurs inside the lowered text. -/
theorem reSearch_lit_iff (term : List Char) (s : List Char) :
    reSearch (term.map RTok.lit) s = true ↔
      term.map Char.toLower <:+: s.map Char.toLower := by
  induction s with
  | nil =>
      simp [reSearch, matchHere_lit_iff]
  | cons d ds ih =>
      rw [reSearch]
      simp [matchHere_lit_iff, ih, List.infix_cons_iff]

/-- On metacharacter-free terms the cell test of
`str.contains(term, case=False)` coincides with case-insensitive
substring containment. -/
theorem strContainsCI_iff_no_meta (name : String) (term : List Char)
    (h : ∀ c ∈ term, c ∉ regexMetachars) :
    strContainsCI name term = true ↔ nameMatchesCI name term := by
  rw [strContainsCI, parseRegex_of_no_meta term h]
  exact reSearch_lit_iff term name.data

/-- C2 counterexample: searching for the term "." keeps the Fern record
even though "." does not occur in "Fern" as a (case-insensitive)
substring — the search term is interpreted as a regular expression, so
the filter is not substring matching for metacharacter terms. -/
theorem name_filter_dot_counterexample :
    filter_by_name_substring [fern] ['.'] = [fern] ∧
    ¬ nameMatchesCI fern.name ['.'] := by
  exact ⟨by decide, by decide⟩

/-- C2 (amended): the empty search term leaves the record list unchanged,
and every non-empty term free of regex metacharacters keeps exactly the
records whose `name` contains the term case-insensitively: the result is
a sublist of the input (order preserved), every kept record matches, and
every matching record value keeps its exact multiplicity. -/
theorem name_filter_spec (inv : List Record) (term : List Char) :
    filter_by_name_substring inv [] = inv ∧
    (term ≠ [] → (∀ c ∈ term, c ∉ regexMetachars) →
      (filter_by_name_substring inv term).Sublist inv ∧
      (∀ r ∈ filter_by_name_substring inv term, nameMatchesCI r.name term) ∧
      (∀ r : Record, nameMatchesCI r.name term →
        (filter_by_name_substring inv term).count r = inv.count r)) := by
  constructor
  · rfl
  · intro hne hmeta
    have hni : term.isEmpty = false := List.isEmpty_eq_false.mpr hne
    rw [filter_by_name_substring, hni]
    simp only [Bool.false_eq_true, if_false]
    refine ⟨List.filter_sublist _, ?_, ?_⟩
    · intro r hr
      rw [List.mem_filter] at hr
      exact (strContainsCI_iff_no_meta r.name term hmeta).mp hr.2
    · intro r hr
      exact List.count_filter
        ((strContainsCI_iff_no_meta r.name term hmeta).mpr hr)

/-- Witness for C2 (amended): the metacharacter-free term "er" occurs in
"Fern" and the filter keeps the Fern record with its multiplicity. -/
theorem name_filter_spec_witness :
    (['e', 'r'] : List Char) ≠ [] ∧
    (∀ c ∈ (['e', 'r'] : List Char), c ∉ regexMetachars) ∧
    nameMatchesCI fern.name ['e', 'r'] ∧
    (filter_by_name_substring [fern, goldfish] ['e', 'r']).count fern =
      ([fern, goldfish] : List Record).count fern :=
  ⟨by decide, by decide, by decide,
    ((name_filter_spec [fern, goldfish] ['e', 'r']).2 (by decide)
      (by decide)).2.2 fern (by decide)⟩

end Inventory
